import Mathlib

/-!
Verification of the StatTracker backend (CSV ingestion, team detection,
stat calculation, aggregation, in-memory store) against its specification.

The Python source is shallowly embedded: strings are Lean `String`s,
Python ints are `Int`, Python floats are idealized as exact rationals `ℚ`
(with `round(x, 3)` modelled as round-half-even at three decimals, which is
Python's rounding mode), `None`-able values are `Option`s, and the mutable
in-memory store is threaded explicitly as a `Store` value.  Python dicts
keyed by insertion order are modelled as lists in insertion order.
-/

namespace StatTracker

/-! ## Python string primitives -/

/-- The single-quote character. -/
def squoteChar : Char := Char.ofNat 39

/-- The single-quote character as a one-character string. -/
def sq : String := String.singleton squoteChar

/-- Characters removed by Python `str.strip()` with no arguments. -/
def pyIsSpace (c : Char) : Bool :=
  c = ' ' || c = Char.ofNat 9 || c = Char.ofNat 10 || c = Char.ofNat 13 ||
  c = Char.ofNat 11 || c = Char.ofNat 12

/-- Remove characters satisfying `p` from both ends of a string
(Python `str.strip(chars)`). -/
def stripChars (p : Char → Bool) (s : String) : String :=
  ⟨((s.toList.dropWhile p).reverse.dropWhile p).reverse⟩

/-- Python `s.strip()`. -/
def pyStrip (s : String) : String := stripChars pyIsSpace s

/-- Python `s.lower()` (ASCII range, which covers all data in scope). -/
def pyLower (s : String) : String := ⟨s.toList.map Char.toLower⟩

/-- Python `repr` of a list of strings, e.g. `[` `'A', 'B'` `]`, as used by
f-string interpolation of `unique_teams` in error messages. -/
def pyReprStrList (l : List String) : String :=
  "[" ++ String.intercalate ", " (l.map (fun s => sq ++ s ++ sq)) ++ "]"

/-- First-occurrence deduplication, the order produced by Python dict / pandas
`unique` iteration. -/
def pyUnique {α : Type} [DecidableEq α] (l : List α) : List α :=
  l.foldl (fun acc x => if x ∈ acc then acc else acc ++ [x]) []

/-! ## Lenient integer coercion (`IngestService._safe_int`) -/

/-- `True` when the exact decimal value `intDigits.fracDigits · 10 ^ e` is at
least the IEEE-754 double overflow threshold `2 ^ 1024 - 2 ^ 970` (the
smallest magnitude that rounds to infinity under round-to-nearest-even), so
that `float(s)` is infinite and `int(float(s))` raises OverflowError.  The
sign is irrelevant.  Decided with exact integer arithmetic.  The threshold is
written as `(2 ^ 97) ^ 10 * (2 ^ 54 - 1)` — the same number, see
`overflowThreshold_eq` — so every literal exponent stays below the
elaborator's exponentiation bound and witnesses evaluate. -/
def overflowThreshold : Nat := (2 ^ 97) ^ 10 * (2 ^ 54 - 1)

/-- Round-half-even of a rational to the nearest integer, Python's rounding
mode for `round`. -/
def roundHalfEven (x : ℚ) : ℤ :=
  if x - ⌊x⌋ < 1 / 2 then ⌊x⌋
  else if 1 / 2 < x - ⌊x⌋ then ⌊x⌋ + 1
  else if ⌊x⌋ % 2 = 0 then ⌊x⌋ else ⌊x⌋ + 1

/-- Python `round(x, 3)` idealized over exact rationals. -/
def round3 (x : ℚ) : ℚ := (roundHalfEven (x * 1000) : ℚ) / 1000

/-- Result record of `compute_derived_stats_from_raw`. -/
structure DerivedStats where
  singles : ℤ
  PA : ℤ
  TB : ℤ
  AVG : ℚ
  OBP : ℚ
  SLG : ℚ
  OPS : ℚ
deriving DecidableEq

/-- `compute_derived_stats_from_raw(ab, h, double, triple, hr, bb, hbp, sf,
sh)`: pure computation of derived batting stats; every division is guarded by
a positivity test, so the function is total (the Python version never
raises). -/
def compute_derived_stats_from_raw
    (ab h double triple hr bb hbp sf sh : ℤ) : DerivedStats :=
  let singles := h - double - triple - hr
  let pa := ab + bb + hbp + sf + sh
  let tb := singles + 2 * double + 3 * triple + 4 * hr
  let avg : ℚ := if 0 < ab then round3 ((h : ℚ) / (ab : ℚ)) else 0
  let obp_denom := ab + bb + hbp + sf
  let obp : ℚ :=
    if 0 < obp_denom then round3 (((h + bb + hbp : ℤ) : ℚ) / ((obp_denom : ℤ) : ℚ)) else 0
  let slg : ℚ := if 0 < ab then round3 ((tb : ℚ) / (ab : ℚ)) else 0
  let ops := round3 (obp + slg)
  ⟨singles, pa, tb, avg, obp, slg, ops⟩

/-! ## HitTrax sectioned parsing (`IngestService._detect_teams_from_hittrax_format`
and `IngestService._parse_hittrax_team_section`) -/

/-- One row of the flat-CSV DataFrame restricted to the columns these code
paths read: the `team` cell (`none` models a pandas NaN), the `r` cell after
lenient coercion, and the player cell for row identity. -/
structure FlatRow where
  team : Option String
  r : ℤ
  player : String
deriving DecidableEq

/-- The DataFrame shape these code paths depend on: which of the `team` / `r`
columns exist after column-name normalization, plus the rows. -/
structure FlatDf where
  hasTeam : Bool
  hasR : Bool
  rows : List FlatRow
deriving DecidableEq

/-- `str(cell)` for a team cell: pandas `astype(str)` renders NaN as the
string `nan`. -/
def rowTeamStr (row : FlatRow) : String :=
  match row.team with
  | some s => s
  | none => "nan"

/-- `df[team].dropna().astype(str).str.strip().unique().tolist()` followed by
the empty/`nan` filter. -/
def uniqueTeamsOf (df : FlatDf) : List String :=
  (pyUnique ((df.rows.filterMap (·.team)).map pyStrip)).filter
    (fun t => t ≠ "" && pyLower t ≠ "nan")

/-- Result record of flat-CSV team detection. -/
structure CsvDetectResult where
  team1_name : String
  team2_name : String
  team1_rows : List FlatRow
  team2_rows : List FlatRow
  team1_runs : ℤ
  team2_runs : ℤ
  winner : Option String
deriving DecidableEq

/-- Error text when the `team` column is missing. -/
def errNoTeamCol : String :=
  "CSV must contain a " ++ sq ++ "Team" ++ sq ++
  " column for automatic team detection, or be in HitTrax format with team names as header rows containing " ++
  sq ++ "Batting Order" ++ sq ++ "."

/-- Error text when fewer than two distinct team values are present. -/
def errTooFewTeams (teams : List String) : String :=
  "CSV must contain exactly 2 teams. Found " ++ toString teams.length ++
  " team(s): " ++ pyReprStrList teams ++ ". Please ensure the CSV has a " ++
  sq ++ "Team" ++ sq ++ " column with exactly 2 different team names."

/-- Error text when more than two distinct team values are present. -/
def errTooManyTeams (teams : List String) : String :=
  "CSV must contain exactly 2 teams. Found " ++ toString teams.length ++
  " teams: " ++ pyReprStrList teams ++
  ". Please split the CSV or ensure only 2 teams are present."

/-- The first detected team value, `unique_teams[0].strip()`. -/
def csvT1 (df : FlatDf) : String := pyStrip ((uniqueTeamsOf df).headD "")

/-- The second detected team value, `unique_teams[1].strip()`. -/
def csvT2 (df : FlatDf) : String := pyStrip ((uniqueTeamsOf df).getD 1 "")

/-- The sub-table of the rows whose trimmed team value equals `t`. -/
def csvTeamRows (df : FlatDf) (t : String) : List FlatRow :=
  df.rows.filter (fun row => pyStrip (rowTeamStr row) = t)

/-- Runs scored by a sub-table: sum of its `r` column, 0 when absent. -/
def csvRuns (df : FlatDf) (t : String) : ℤ :=
  if df.hasR then ((csvTeamRows df t).map (·.r)).sum else 0

/-- The success result of flat-CSV detection with exactly two team values. -/
def csvSplit (df : FlatDf) : CsvDetectResult :=
  { team1_name := csvT1 df, team2_name := csvT2 df,
    team1_rows := csvTeamRows df (csvT1 df), team2_rows := csvTeamRows df (csvT2 df),
    team1_runs := csvRuns df (csvT1 df), team2_runs := csvRuns df (csvT2 df),
    winner :=
      if csvRuns df (csvT2 df) < csvRuns df (csvT1 df) then some (csvT1 df)
      else if csvRuns df (csvT1 df) < csvRuns df (csvT2 df) then some (csvT2 df)
      else none }

/-- `IngestService._detect_teams_from_csv`: require a `team` column, collect
the distinct non-empty non-`nan` trimmed team values, fail unless exactly two
remain, split the rows by trimmed equality with each team value, sum the `r`
column per split (0 when the column is absent) and pick the winner. -/
def detect_teams_from_csv (df : FlatDf) : Except String CsvDetectResult :=
  if !df.hasTeam then .error errNoTeamCol
  else if (uniqueTeamsOf df).length < 2 then .error (errTooFewTeams (uniqueTeamsOf df))
  else if 2 < (uniqueTeamsOf df).length then .error (errTooManyTeams (uniqueTeamsOf df))
  else .ok (csvSplit df)

/-- Result of the manual-team-assignment branch of `ingest_game_csv` (both
`home_team` and `away_team` supplied): the two sub-tables, the two scores and
the winner.  This branch performs no two-team validation and cannot fail. -/
structure ManualAssignResult where
  team1_rows : List FlatRow
  team2_rows : List FlatRow
  home_score : ℤ
  away_score : ℤ
  winner : Option String
deriving DecidableEq

/-- `df[team].dropna().astype(str).str.strip().unique().tolist()` of the
manual-assignment path (no empty/`nan` filtering here, unlike automatic
detection). -/
def manualUnique (df : FlatDf) : List String :=
  pyUnique ((df.rows.filterMap (·.team)).map pyStrip)

/-- Home sub-table of the manual path: rows whose trimmed team value equals
`home_team` when `home_team` occurs among the trimmed values, otherwise the
whole table; also the whole table when there is no `team` column. -/
def manualTeam1 (df : FlatDf) (home_team : String) : List FlatRow :=
  if df.hasTeam then
    if home_team ∈ manualUnique df then
      df.rows.filter (fun row => pyStrip (rowTeamStr row) = home_team)
    else df.rows
  else df.rows

/-- Away sub-table of the manual path: rows whose trimmed team value equals
`away_team` when it occurs among the trimmed values, otherwise an empty
table; also empty when there is no `team` column. -/
def manualTeam2 (df : FlatDf) (away_team : String) : List FlatRow :=
  if df.hasTeam then
    if away_team ∈ manualUnique df then
      df.rows.filter (fun row => pyStrip (rowTeamStr row) = away_team)
    else []
  else []

/-- Home score of the manual path: sum of the home sub-table's `r` column,
0 when the column is absent. -/
def manualHomeScore (df : FlatDf) (home_team : String) : ℤ :=
  if df.hasR then ((manualTeam1 df home_team).map (·.r)).sum else 0

/-- Away score of the manual path: the empty DataFrame produced when
`away_team` matches nothing (or there is no `team` column) has no `r` column,
so the score is 0 in those cases. -/
def manualAwayScore (df : FlatDf) (away_team : String) : ℤ :=
  if df.hasTeam then
    if away_team ∈ manualUnique df then
      if df.hasR then ((manualTeam2 df away_team).map (·.r)).sum else 0
    else 0
  else 0

/-- Manual team assignment (`ingest_game_csv` with both teams given): no
two-team validation is performed and this branch never raises; the function is
total. -/
def manual_team_assignment (df : FlatDf) (home_team away_team : String) : ManualAssignResult :=
  { team1_rows := manualTeam1 df home_team,
    team2_rows := manualTeam2 df away_team,
    home_score := manualHomeScore df home_team,
    away_score := manualAwayScore df away_team,
    winner :=
      if manualAwayScore df away_team < manualHomeScore df home_team then some home_team
      else if manualHomeScore df home_team < manualAwayScore df away_team then some away_team
      else none }

/-! ## Entity store (`app/storage/memory_store.py`) -/

/-- A stored `Game` (creation timestamp omitted: wall-clock time is outside
the embedding; the date is kept as its `YYYY-MM-DD` string). -/
structure Game where
  id : Nat
  league : String
  season : String
  date : String
  home_team : String
  away_team : String
  home_score : ℤ
  away_score : ℤ
  winner : Option String
deriving DecidableEq

/-- A stored `Player` (creation timestamp omitted). -/
structure Player where
  id : Nat
  name : String
  team : String
  league : Option String
deriving DecidableEq

/-- A stored `PlateAppearance` (one player's full-game batting line). -/
structure PlateAppearance where
  id : Nat
  game_id : Nat
  player_id : Nat
  team : String
  AB : ℤ
  H : ℤ
  double : ℤ
  triple : ℤ
  HR : ℤ
  BB : ℤ
  HBP : ℤ
  SF : ℤ
  SH : ℤ
  K : ℤ
  R : ℤ
  RBI : ℤ
  SB : ℤ
  CS : ℤ
deriving DecidableEq

/-- A stored `HitterTotal`: summed raw counting stats for one
(player, league, season) plus games-played and the derived fields. -/
structure HitterTotal where
  id : Nat
  player_id : Nat
  league : String
  season : String
  games : Nat
  AB : ℤ
  H : ℤ
  double : ℤ
  triple : ℤ
  HR : ℤ
  BB : ℤ
  HBP : ℤ
  SF : ℤ
  SH : ℤ
  K : ℤ
  R : ℤ
  RBI : ℤ
  SB : ℤ
  CS : ℤ
  singles : ℤ
  PA : ℤ
  TB : ℤ
  AVG : ℚ
  OBP : ℚ
  SLG : ℚ
  OPS : ℚ
deriving DecidableEq

/-- The in-memory store: each Python id-keyed dict is modelled as the list of
its values in insertion order, together with the auto-increment counters.  The
Python secondary indexes (normalized name/team to player id, hitter-total key
to id) are modelled by first-match lookup over these lists, which agrees with
the dict indexes on every state whose keys are unique. -/
structure Store where
  players : List Player
  games : List Game
  plate_appearances : List PlateAppearance
  hitter_totals : List HitterTotal
  player_counter : Nat
  game_counter : Nat
  plate_appearance_counter : Nat
  hitter_total_counter : Nat
deriving DecidableEq

/-- The store at process start. -/
def emptyStore : Store := ⟨[], [], [], [], 0, 0, 0, 0⟩

/-- Team-name normalization used by duplicate detection:
`t.strip().lower()` (the empty string stands for a falsy/absent name). -/
def normTeam (t : String) : String := pyLower (pyStrip t)

/-- The per-game duplicate test: same date, league and season, and normalized
team names equal in either order. -/
def dupMatch (d l s home_team away_team : String) (g : Game) : Bool :=
  g.date == d && g.league == l && g.season == s &&
    ((normTeam g.home_team == normTeam home_team &&
      normTeam g.away_team == normTeam away_team) ||
     (normTeam g.home_team == normTeam away_team &&
      normTeam g.away_team == normTeam home_team))

/-- `MemoryStore.check_duplicate_game`: scan stored games for one with the
same date, league and season whose normalized team names match the query pair
in either order; return the first such game. -/
def check_duplicate_game (games : List Game) (d l s home_team away_team : String) :
    Option Game :=
  games.find? (dupMatch d l s home_team away_team)

/-- The duplicate gate of the `upload_csv` route: the duplicate check runs
before any record is created, so a conflict leaves the store untouched and
reports the pre-existing game; otherwise ingestion proceeds on the unchanged
store. -/
def upload_csv_duplicate_gate (st : Store) (d l s home_team away_team : String) :
    Except Game Store :=
  match check_duplicate_game st.games d l s home_team away_team with
  | some g => .error g
  | none => .ok st

/-- Normalized player key `(name.lower().strip(), team.lower().strip())`. -/
def playerKey (name team : String) : String × String :=
  (pyStrip (pyLower name), pyStrip (pyLower team))

/-- The normalized key of a stored player. -/
def playerKeyOf (p : Player) : String × String := playerKey p.name p.team

/-- `MemoryStore.create_player`: assign the next id and append; the index
entry for the normalized key is implicit in the list. -/
def create_player (st : Store) (name team : String) (league : Option String) :
    Store × Player :=
  let p : Player := ⟨st.player_counter + 1, name, team, league⟩
  ({ st with player_counter := st.player_counter + 1, players := st.players ++ [p] }, p)

/-- `MemoryStore.get_player_by_name_team`: look up by normalized key. -/
def get_player_by_name_team (st : Store) (name team : String) : Option Player :=
  st.players.find? (fun p => playerKeyOf p == playerKey name team)

/-- The find-or-create step `ingest_game_csv` performs for every parsed player
row: reuse the stored player with the same normalized (name, team), else
create one. -/
def find_or_create_player (st : Store) (name team : String) (league : Option String) :
    Store × Player :=
  match get_player_by_name_team st name team with
  | some p => (st, p)
  | none => create_player st name team league

/-- `MemoryStore.create_game`. -/
def create_game (st : Store) (league season d home_team away_team : String)
    (home_score away_score : ℤ) (winner : Option String) : Store × Game :=
  let g : Game := ⟨st.game_counter + 1, league, season, d, home_team, away_team,
    home_score, away_score, winner⟩
  ({ st with game_counter := st.game_counter + 1, games := st.games ++ [g] }, g)

/-- `MemoryStore.create_plate_appearance`. -/
def create_plate_appearance (st : Store) (pa : PlateAppearance) : Store :=
  { st with
    plate_appearance_counter := st.plate_appearance_counter + 1,
    plate_appearances :=
      st.plate_appearances ++ [{ pa with id := st.plate_appearance_counter + 1 }] }

/-! ## Hitter-total recompute (`StatsService.recompute_hitter_totals`,
`stat_calculators.compute_derived_stats`,
`MemoryStore.create_or_update_hitter_total`) -/

/-- `compute_derived_stats`: overwrite the derived fields of a `HitterTotal`
from its counting fields, with the same guarded formulas as the raw-stat
calculator. -/
def compute_derived_stats (ht : HitterTotal) : HitterTotal :=
  let singles := ht.H - ht.double - ht.triple - ht.HR
  let pa := ht.AB + ht.BB + ht.HBP + ht.SF + ht.SH
  let tb := singles + 2 * ht.double + 3 * ht.triple + 4 * ht.HR
  let avg : ℚ := if 0 < ht.AB then round3 ((ht.H : ℚ) / (ht.AB : ℚ)) else 0
  let obp_denom := ht.AB + ht.BB + ht.HBP + ht.SF
  let obp : ℚ :=
    if 0 < obp_denom then
      round3 (((ht.H + ht.BB + ht.HBP : ℤ) : ℚ) / ((obp_denom : ℤ) : ℚ))
    else 0
  let slg : ℚ := if 0 < ht.AB then round3 ((tb : ℚ) / (ht.AB : ℚ)) else 0
  let ops := round3 (obp + slg)
  { ht with singles := singles, PA := pa, TB := tb,
            AVG := avg, OBP := obp, SLG := slg, OPS := ops }

/-- Match on the hitter-total uniqueness key (player_id, league, season). -/
def htMatch (pid : Nat) (l s : String) (ht : HitterTotal) : Bool :=
  ht.player_id == pid && ht.league == l && ht.season == s

/-- `MemoryStore.get_hitter_total`: index lookup by key. -/
def get_hitter_total (st : Store) (pid : Nat) (l s : String) : Option HitterTotal :=
  st.hitter_totals.find? (htMatch pid l s)

/-- Replace the first element satisfying `p` by `x`, modelling an in-place
update of the indexed element. -/
def replaceFirst {α : Type} (p : α → Bool) (x : α) : List α → List α
  | [] => []
  | y :: ys => if p y then x :: ys else y :: replaceFirst p x ys

/-- `MemoryStore.create_or_update_hitter_total`: when a record with the same
key exists, overwrite every field except `id` on it in place; otherwise assign
the next id and append. -/
def create_or_update_hitter_total (st : Store) (ht : HitterTotal) : Store :=
  match st.hitter_totals.find? (htMatch ht.player_id ht.league ht.season) with
  | some existing =>
      let stored : HitterTotal := { ht with id := existing.id }
      { st with hitter_totals :=
          replaceFirst (htMatch ht.player_id ht.league ht.season) stored st.hitter_totals }
  | none =>
      let stored : HitterTotal := { ht with id := st.hitter_total_counter + 1 }
      { st with
        hitter_total_counter := st.hitter_total_counter + 1,
        hitter_totals := st.hitter_totals ++ [stored] }

/-- The plate appearances of the given league/season: those whose game exists
and carries that league and season (`recompute_hitter_totals` filter). -/
def relevantPAs (st : Store) (l s : String) : List PlateAppearance :=
  st.plate_appearances.filter (fun pa =>
    match st.games.find? (fun g => g.id == pa.game_id) with
    | some g => g.league == l && g.season == s
    | none => false)

/-- The freshly folded hitter total for one player: raw fields summed over the
player's relevant plate appearances, games the count of distinct game ids,
derived fields recomputed. -/
def freshHitterTotal (idv pid : Nat) (l s : String) (pas : List PlateAppearance) :
    HitterTotal :=
  compute_derived_stats
    { id := idv, player_id := pid, league := l, season := s,
      games := (pyUnique (pas.map (·.game_id))).length,
      AB := (pas.map (·.AB)).sum, H := (pas.map (·.H)).sum,
      double := (pas.map (·.double)).sum, triple := (pas.map (·.triple)).sum,
      HR := (pas.map (·.HR)).sum, BB := (pas.map (·.BB)).sum,
      HBP := (pas.map (·.HBP)).sum, SF := (pas.map (·.SF)).sum,
      SH := (pas.map (·.SH)).sum, K := (pas.map (·.K)).sum,
      R := (pas.map (·.R)).sum, RBI := (pas.map (·.RBI)).sum,
      SB := (pas.map (·.SB)).sum, CS := (pas.map (·.CS)).sum,
      singles := 0, PA := 0, TB := 0, AVG := 0, OBP := 0, SLG := 0, OPS := 0 }

/-- The base record of one update-loop iteration: the existing record for
(pid, league, season), or a fresh blank `HitterTotal` when none exists. -/
def recomputeBase (acc : Store) (pid : Nat) (l s : String) : HitterTotal :=
  match get_hitter_total acc pid l s with
  | some existing => existing
  | none =>
      { id := 0, player_id := pid, league := l, season := s, games := 0,
        AB := 0, H := 0, double := 0, triple := 0, HR := 0, BB := 0,
        HBP := 0, SF := 0, SH := 0, K := 0, R := 0, RBI := 0, SB := 0,
        CS := 0, singles := 0, PA := 0, TB := 0, AVG := 0, OBP := 0,
        SLG := 0, OPS := 0 }

/-- The id the update-loop iteration leaves on the stored record: the
existing record's id, or the placeholder 0 replaced on the create path. -/
def htBaseId (acc : Store) (pid : Nat) (l s : String) : Nat :=
  match get_hitter_total acc pid l s with
  | some existing => existing.id
  | none => 0

/-- Overwrite the games count and all 14 counting fields of `base` with the
fold of `pas` (games counted as distinct game ids). -/
def recomputeUpdated (base : HitterTotal) (pas : List PlateAppearance) : HitterTotal :=
  { base with
    games := (pyUnique (pas.map (·.game_id))).length,
    AB := (pas.map (·.AB)).sum, H := (pas.map (·.H)).sum,
    double := (pas.map (·.double)).sum, triple := (pas.map (·.triple)).sum,
    HR := (pas.map (·.HR)).sum, BB := (pas.map (·.BB)).sum,
    HBP := (pas.map (·.HBP)).sum, SF := (pas.map (·.SF)).sum,
    SH := (pas.map (·.SH)).sum, K := (pas.map (·.K)).sum,
    R := (pas.map (·.R)).sum, RBI := (pas.map (·.RBI)).sum,
    SB := (pas.map (·.SB)).sum, CS := (pas.map (·.CS)).sum }

/-- One iteration of the `recompute_hitter_totals` update loop for player
`pid`: take the existing record for (pid, league, season) or a fresh blank
one, overwrite games and every counting field from the fold, recompute the
derived fields, and upsert. -/
def recomputeStep (l s : String) (relevant : List PlateAppearance)
    (acc : Store) (pid : Nat) : Store :=
  create_or_update_hitter_total acc
    (compute_derived_stats (recomputeUpdated (recomputeBase acc pid l s)
      (relevant.filter (fun pa => pa.player_id == pid))))

/-- `StatsService.recompute_hitter_totals`: filter the plate appearances of
the league/season, group them by player id in first-appearance order (Python
dict order), and upsert one freshly folded `HitterTotal` per player.  Nothing
is deleted. -/
def recompute_hitter_totals (st : Store) (l s : String) : Store :=
  (pyUnique ((relevantPAs st l s).map (·.player_id))).foldl
    (recomputeStep l s (relevantPAs st l s)) st

/-- The hitter-total uniqueness key. -/
def htKey (ht : HitterTotal) : Nat × String × String := (ht.player_id, ht.league, ht.season)

/-- Key-uniqueness invariant of the hitter-total collection (the property the
Python key-to-id index maintains on every reachable state). -/
@[reducible] def htKeysUnique (l : List HitterTotal) : Prop := (l.map htKey).Nodup

/-- Key-uniqueness invariant of the player collection. -/
@[reducible] def playerKeysUnique (st : Store) : Prop := (st.players.map playerKeyOf).Nodup

/-! ## Ingestion-reachable states (for the player-uniqueness invariant) -/

/-- The store operations ingestion performs.  Player records are only ever
created through the guarded find-or-create step; the other operations never
touch the player collection. -/
inductive IngestOp where
  | findOrCreatePlayer (name team : String) (league : Option String)
  | addGame (league season d home_team away_team : String)
      (home_score away_score : ℤ) (winner : Option String)
  | addPlateAppearance (pa : PlateAppearance)
  | recompute (l s : String)

/-- Apply one ingestion operation to the store. -/
def applyOp (st : Store) : IngestOp → Store
  | .findOrCreatePlayer name team league => (find_or_create_player st name team league).1
  | .addGame league season d ht aw hs as w => (create_game st league season d ht aw hs as w).1
  | .addPlateAppearance pa => create_plate_appearance st pa
  | .recompute l s => recompute_hitter_totals st l s

/-- The store reached from startup by a sequence of ingestion operations. -/
def runOps (ops : List IngestOp) : Store := ops.foldl applyOp emptyStore

/-- Decidable equality for `Except`, used to evaluate the parsers on concrete
inputs. -/
instance exceptDecEq {e a : Type} [DecidableEq e] [DecidableEq a] :
    DecidableEq (Except e a) := fun x y =>
  match x, y with
  | .ok u, .ok v => if h : u = v then .isTrue (by rw [h]) else .isFalse (by simp [h])
  | .error u, .error v => if h : u = v then .isTrue (by rw [h]) else .isFalse (by simp [h])
  | .ok _, .error _ => .isFalse (by simp)
  | .error _, .ok _ => .isFalse (by simp)

/-! ## Concrete inputs used to instantiate the theorems -/

/-- A flat DataFrame with two team values and one row whose team cell is the
empty string. -/
def dfC8x : FlatDf :=
  ⟨true, true, [⟨some "A", 2, "p1"⟩, ⟨some "B", 1, "p2"⟩, ⟨some "", 5, "p3"⟩]⟩

/-- The split result of `dfC8x`. -/
def csvResX : CsvDetectResult :=
  ⟨"A", "B", [⟨some "A", 2, "p1"⟩], [⟨some "B", 1, "p2"⟩], 2, 1, some "A"⟩

/-- A stored game with home team `B` and away team `A`. -/
def gameBA : Game := ⟨1, "L", "S", "2024-01-15", "B", "A", 3, 2, some "B"⟩

/-- A store holding only `gameBA`. -/
def stC4 : Store := ⟨[], [gameBA], [], [], 0, 1, 0, 0⟩

/-- A stale hitter total for player 7 in league `L`, season `S`. -/
def htStale : HitterTotal :=
  ⟨1, 7, "L", "S", 0, 0, 0, 0, 0, 0, 0, 0, 0, 0, 0, 0, 0, 0, 0, 0, 0, 0, 0, 0, 0, 0⟩

/-- A store with `htStale` and no plate appearances at all. -/
def stC5x : Store := ⟨[], [], [], [htStale], 0, 0, 0, 1⟩

/-- A game in league `L`, season `S`. -/
def gLS1 : Game := ⟨1, "L", "S", "2024-01-01", "A", "B", 0, 0, none⟩

/-- A second game in league `L`, season `S`. -/
def gLS2 : Game := ⟨2, "L", "S", "2024-01-02", "A", "B", 0, 0, none⟩

/-- Player 3's batting line in game 1. -/
def paW1 : PlateAppearance := ⟨1, 1, 3, "A", 4, 2, 1, 0, 0, 1, 0, 0, 0, 1, 1, 2, 0, 0⟩

/-- Player 3's batting line in game 2. -/
def paW2 : PlateAppearance := ⟨2, 2, 3, "A", 3, 1, 0, 0, 1, 0, 0, 0, 0, 0, 2, 1, 0, 0⟩

/-- A second batting line for player 3 in game 2 (same game id as `paW2`). -/
def paW3 : PlateAppearance := ⟨3, 2, 3, "A", 1, 1, 0, 0, 0, 0, 0, 0, 0, 0, 0, 0, 0, 0⟩

/-- A store where player 3 appears in two games, twice in the second, and a
stale total for player 7 is also present. -/
def stC5w : Store := ⟨[], [gLS1, gLS2], [paW1, paW2, paW3], [htStale], 0, 2, 3, 1⟩

/-- The same scenario without the stale row, used for games-played counting. -/
def stC6w : Store := ⟨[], [gLS1, gLS2], [paW1, paW2, paW3], [], 0, 2, 3, 0⟩

/-- Store used to instantiate recompute idempotence. -/
def stC7w : Store := ⟨[], [gLS1], [paW1], [htStale], 0, 1, 1, 1⟩

/-- A flat DataFrame whose only row belongs to team `B`. -/
def dfC10x : FlatDf := ⟨true, true, [⟨some "B", 1, "p1"⟩]⟩

/-- A flat DataFrame with no team column. -/
def dfC10w : FlatDf := ⟨false, true, [⟨none, 2, "q1"⟩, ⟨none, 1, "q2"⟩]⟩

/-! ## Rounding lemmas -/

theorem roundHalfEven_intCast (k : ℤ) : roundHalfEven (k : ℚ) = k := by
  norm_num [roundHalfEven, Int.floor_intCast]

theorem round3_thousandth (k : ℤ) : round3 ((k : ℚ) / 1000) = (k : ℚ) / 1000 := by
  unfold round3
  rw [div_mul_cancel₀ _ (by norm_num : (1000 : ℚ) ≠ 0), roundHalfEven_intCast]

theorem round3_zero : round3 0 = 0 := by
  have h := round3_thousandth 0
  simpa using h

theorem round3_form (x : ℚ) : ∃ k : ℤ, round3 x = (k : ℚ) / 1000 :=
  ⟨roundHalfEven (x * 1000), rfl⟩

theorem round3_add_round3 (a b : ℚ) :
    round3 (round3 a + round3 b) = round3 a + round3 b := by
  obtain ⟨k1, h1⟩ := round3_form a
  obtain ⟨k2, h2⟩ := round3_form b
  rw [h1, h2, div_add_div_same, ← Int.cast_add, round3_thousandth]

theorem abs_roundHalfEven_sub (x : ℚ) : |(roundHalfEven x : ℚ) - x| ≤ 1 / 2 := by
  have h0 : (⌊x⌋ : ℚ) ≤ x := Int.floor_le x
  have h1 : x < ⌊x⌋ + 1 := Int.lt_floor_add_one x
  unfold roundHalfEven
  split_ifs with hlt hgt hev
  · rw [abs_le]
    constructor <;> linarith
  · rw [abs_le]
    push_cast
    constructor <;> linarith
  · rw [abs_le]
    constructor <;> linarith
  · rw [abs_le]
    push_cast
    constructor <;> linarith

theorem abs_round3_sub (x : ℚ) : |round3 x - x| ≤ 1 / 2000 := by
  have h := abs_roundHalfEven_sub (x * 1000)
  have heq : round3 x - x = ((roundHalfEven (x * 1000) : ℚ) - x * 1000) / 1000 := by
    unfold round3
    ring
  rw [heq, abs_div, abs_of_pos (by norm_num : (0 : ℚ) < 1000)]
  linarith

/-! ## Claims C2 and C3: the numeric stat calculator -/

/-- Claim C2: for all integer inputs the stat calculator returns
singles = H − 2B − 3B − HR (possibly negative, no validation),
PA = AB + BB + HBP + SF + SH, TB = singles + 2·2B + 3·3B + 4·HR,
AVG = round(H/AB, 3) when AB > 0 else 0, OBP = round((H+BB+HBP)/(AB+BB+HBP+SF), 3)
when that denominator is positive else 0, and SLG = round(TB/AB, 3) when
AB > 0 else 0; every division is guarded, and the Lean embedding is a total
function, mirroring the fact that the Python function never raises. -/
theorem c2_stat_calculator_formulas (ab h double triple hr bb hbp sf sh : ℤ) :
    (compute_derived_stats_from_raw ab h double triple hr bb hbp sf sh).singles
        = h - double - triple - hr ∧
    (compute_derived_stats_from_raw ab h double triple hr bb hbp sf sh).PA
        = ab + bb + hbp + sf + sh ∧
    (compute_derived_stats_from_raw ab h double triple hr bb hbp sf sh).TB
        = (h - double - triple - hr) + 2 * double + 3 * triple + 4 * hr ∧
    (compute_derived_stats_from_raw ab h double triple hr bb hbp sf sh).AVG
        = (if 0 < ab then round3 ((h : ℚ) / (ab : ℚ)) else 0) ∧
    (compute_derived_stats_from_raw ab h double triple hr bb hbp sf sh).OBP
        = (if 0 < ab + bb + hbp + sf then
            round3 (((h + bb + hbp : ℤ) : ℚ) / ((ab + bb + hbp + sf : ℤ) : ℚ)) else 0) ∧
    (compute_derived_stats_from_raw ab h double triple hr bb hbp sf sh).SLG
        = (if 0 < ab then
            round3 ((((h - double - triple - hr) + 2 * double + 3 * triple + 4 * hr : ℤ) : ℚ)
              / (ab : ℚ)) else 0) :=
  ⟨rfl, rfl, rfl, rfl, rfl, rfl⟩

/-- Claim C3: the returned OPS is the exact sum of the already-rounded OBP and
SLG (rounding the sum of two three-decimal values changes nothing), and for
AB > 0 the returned TB and SLG satisfy |TB − AB·SLG| ≤ AB/2000, i.e. TB equals
AB·SLG to within the three-decimal rounding of SLG. -/
theorem c3_ops_rounding_order (ab h double triple hr bb hbp sf sh : ℤ) :
    (compute_derived_stats_from_raw ab h double triple hr bb hbp sf sh).OPS
      = round3 (if 0 < ab + bb + hbp + sf then
            ((h + bb + hbp : ℤ) : ℚ) / ((ab + bb + hbp + sf : ℤ) : ℚ) else 0)
        + round3 (if 0 < ab then
            (((compute_derived_stats_from_raw ab h double triple hr bb hbp sf sh).TB : ℚ)
              / (ab : ℚ)) else 0) ∧
    (0 < ab →
      |((compute_derived_stats_from_raw ab h double triple hr bb hbp sf sh).TB : ℚ)
          - (ab : ℚ) * (compute_derived_stats_from_raw ab h double triple hr bb hbp sf sh).SLG|
        ≤ (ab : ℚ) / 2000) := by
  set ds := compute_derived_stats_from_raw ab h double triple hr bb hbp sf sh with hds
  constructor
  · have hOBP : ds.OBP = round3 (if 0 < ab + bb + hbp + sf then
        ((h + bb + hbp : ℤ) : ℚ) / ((ab + bb + hbp + sf : ℤ) : ℚ) else 0) := by
      by_cases hd : 0 < ab + bb + hbp + sf
      · simp only [hds, compute_derived_stats_from_raw, if_pos hd]
      · simp only [hds, compute_derived_stats_from_raw, if_neg hd, round3_zero]
    have hSLG : ds.SLG = round3 (if 0 < ab then ((ds.TB : ℚ) / (ab : ℚ)) else 0) := by
      by_cases ha : 0 < ab
      · simp only [hds, compute_derived_stats_from_raw, if_pos ha]
      · simp only [hds, compute_derived_stats_from_raw, if_neg ha, round3_zero]
    have hOPS : ds.OPS = round3 (ds.OBP + ds.SLG) := rfl
    rw [hOPS, hOBP, hSLG, round3_add_round3]
  · intro hab
    have hSLG : ds.SLG = round3 ((ds.TB : ℚ) / (ab : ℚ)) := by
      simp only [hds, compute_derived_stats_from_raw, if_pos hab]
    have habQ : (0 : ℚ) < (ab : ℚ) := by exact_mod_cast hab
    have hne : (ab : ℚ) ≠ 0 := ne_of_gt habQ
    have h1 := abs_round3_sub ((ds.TB : ℚ) / (ab : ℚ))
    have key : (ds.TB : ℚ) - (ab : ℚ) * round3 ((ds.TB : ℚ) / (ab : ℚ))
        = (ab : ℚ) * (((ds.TB : ℚ) / (ab : ℚ)) - round3 ((ds.TB : ℚ) / (ab : ℚ))) := by
      field_simp
    rw [hSLG, key, abs_mul, abs_of_pos habQ, abs_sub_comm]
    calc (ab : ℚ) * |round3 ((ds.TB : ℚ) / (ab : ℚ)) - (ds.TB : ℚ) / (ab : ℚ)|
        ≤ (ab : ℚ) * (1 / 2000) := by
          exact mul_le_mul_of_nonneg_left h1 habQ.le
    _ = (ab : ℚ) / 2000 := by ring

/-- Closed instance of claim C3's guarded part at AB = 4. -/
theorem c3_ops_rounding_order_witness :
    ((0 : ℤ) < 4) ∧
    |((compute_derived_stats_from_raw 4 2 1 0 0 1 0 0 0).TB : ℚ)
        - ((4 : ℤ) : ℚ) * (compute_derived_stats_from_raw 4 2 1 0 0 1 0 0 0).SLG|
      ≤ ((4 : ℤ) : ℚ) / 2000 :=
  ⟨by norm_num, (c3_ops_rounding_order 4 2 1 0 0 1 0 0 0).2 (by norm_num)⟩

/-! ## Claim C1: HitTrax sectioned parsing -/

/-- The overflow threshold as written equals `2 ^ 1024 - 2 ^ 970`: the
magnitude at which a correctly rounded decimal-to-double conversion first
yields infinity. -/
theorem overflowThreshold_eq : overflowThreshold = 2 ^ 1024 - 2 ^ 970 := by
  unfold overflowThreshold
  rw [← pow_mul, Nat.mul_sub, mul_one, ← pow_add]

theorem dropWhile_idem {a : Type} (p : a → Bool) :
    ∀ l : List a, (l.dropWhile p).dropWhile p = l.dropWhile p := by
  intro l
  induction l with
  | nil => rfl
  | cons x xs ih =>
      by_cases h : p x
      · simp [List.dropWhile_cons, h, ih]
      · simp [List.dropWhile_cons, h]

theorem dropWhile_eq_self_of_prefix {a : Type} {p : a → Bool} :
    ∀ {l m : List a}, l <+: m → m.dropWhile p = m → l.dropWhile p = l := by
  intro l m hpre hm
  cases l with
  | nil => rfl
  | cons x xs =>
      cases m with
      | nil => simp at hpre
      | cons y ys =>
          obtain ⟨rest, hrest⟩ := hpre
          have hxy : x = y := by
            have := congrArg (fun t => t.headD x) hrest
            simpa using this
          subst hxy
          by_cases h : p x
          · rw [List.dropWhile_cons, if_pos h] at hm
            have hlen : (ys.dropWhile p).length ≤ ys.length :=
              (List.dropWhile_suffix p).sublist.length_le
            have := congrArg List.length hm
            simp at this
            omega
          · rw [List.dropWhile_cons, if_neg h]

theorem stripChars_idem (p : Char → Bool) (s : String) :
    stripChars p (stripChars p s) = stripChars p s := by
  unfold stripChars
  have hmk : ∀ l : List Char, (String.mk l).toList = l := fun _ => rfl
  rw [hmk]
  have hA : ∀ l : List Char, (l.dropWhile p).dropWhile p = l.dropWhile p :=
    dropWhile_idem p
  set m := s.toList.dropWhile p with hm
  set u := m.reverse.dropWhile p with hu
  have husuffix : u <:+ m.reverse := List.dropWhile_suffix p
  have hupre : u.reverse <+: m := by
    have := List.reverse_prefix.mpr husuffix
    simpa using this
  have hclean : u.reverse.dropWhile p = u.reverse :=
    dropWhile_eq_self_of_prefix hupre (hA _)
  rw [hclean]
  have : u.reverse.reverse.dropWhile p = u.reverse.reverse := by
    rw [List.reverse_reverse]
    rw [hu, hA]
  rw [this]
  simp

theorem pyStrip_idem (s : String) : pyStrip (pyStrip s) = pyStrip s :=
  stripChars_idem pyIsSpace s

theorem pyUnique_go_nodup {a : Type} [DecidableEq a] :
    ∀ (l acc : List a), acc.Nodup →
      (l.foldl (fun acc x => if x ∈ acc then acc else acc ++ [x]) acc).Nodup := by
  intro l
  induction l with
  | nil => intro acc h; exact h
  | cons x xs ih =>
      intro acc h
      simp only [List.foldl_cons]
      by_cases hx : x ∈ acc
      · rw [if_pos hx]
        exact ih acc h
      · rw [if_neg hx]
        refine ih _ ?_
        simp [List.nodup_append, h, hx]

theorem pyUnique_go_mem {a : Type} [DecidableEq a] :
    ∀ (l acc : List a) (x : a),
      x ∈ l.foldl (fun acc x => if x ∈ acc then acc else acc ++ [x]) acc ↔
        x ∈ acc ∨ x ∈ l := by
  intro l
  induction l with
  | nil => intro acc x; simp
  | cons y ys ih =>
      intro acc x
      simp only [List.foldl_cons]
      by_cases hy : y ∈ acc
      · rw [if_pos hy, ih]
        constructor
        · rintro (h | h)
          · exact Or.inl h
          · exact Or.inr (List.mem_cons_of_mem _ h)
        · rintro (h | h)
          · exact Or.inl h
          · rcases List.mem_cons.mp h with rfl | h
            · exact Or.inl hy
            · exact Or.inr h
      · rw [if_neg hy, ih]
        simp only [List.mem_append, List.mem_cons, List.mem_singleton]
        tauto

theorem pyUnique_nodup {a : Type} [DecidableEq a] (l : List a) : (pyUnique l).Nodup :=
  pyUnique_go_nodup l [] List.nodup_nil

theorem pyUnique_mem {a : Type} [DecidableEq a] {l : List a} {x : a} :
    x ∈ pyUnique l ↔ x ∈ l := by
  unfold pyUnique
  rw [pyUnique_go_mem]
  simp

theorem uniqueTeamsOf_nodup (df : FlatDf) : (uniqueTeamsOf df).Nodup := by
  unfold uniqueTeamsOf
  exact (pyUnique_nodup _).filter _

theorem uniqueTeamsOf_stripped (df : FlatDf) :
    ∀ t ∈ uniqueTeamsOf df, pyStrip t = t := by
  intro t ht
  unfold uniqueTeamsOf at ht
  have h1 := (List.mem_filter.mp ht).1
  have h2 := pyUnique_mem.mp h1
  obtain ⟨y, _, rfl⟩ := List.mem_map.mp h2
  exact pyStrip_idem y

/-- Claim C8 (amended): flat detection requires exactly 2 distinct non-empty
non-`nan` trimmed team values; fewer than 2 and more than 2 raise input errors
whose messages interpolate the offending list of team values; with exactly 2,
every row whose trimmed team value equals one of the two detected names lands
in exactly that sub-table, and a row matching neither (for instance a missing,
empty or `nan` team cell) is assigned to neither sub-table — the original
claim's "every row is assigned to exactly one sub-table" fails for such
rows. -/
theorem c8_flat_two_team_detection (df : FlatDf) (hteam : df.hasTeam = true) :
    ((uniqueTeamsOf df).length < 2 →
      detect_teams_from_csv df = .error (errTooFewTeams (uniqueTeamsOf df))) ∧
    (2 < (uniqueTeamsOf df).length →
      detect_teams_from_csv df = .error (errTooManyTeams (uniqueTeamsOf df))) ∧
    ((uniqueTeamsOf df).length = 2 →
      ∃ res, detect_teams_from_csv df = .ok res ∧
        res.team1_name = csvT1 df ∧ res.team2_name = csvT2 df ∧
        res.team1_rows = csvTeamRows df res.team1_name ∧
        res.team2_rows = csvTeamRows df res.team2_name ∧
        res.team1_name ≠ res.team2_name ∧
        (∀ row ∈ df.rows,
          (pyStrip (rowTeamStr row) = res.team1_name →
            row ∈ res.team1_rows ∧ row ∉ res.team2_rows) ∧
          (pyStrip (rowTeamStr row) = res.team2_name →
            row ∈ res.team2_rows ∧ row ∉ res.team1_rows) ∧
          (pyStrip (rowTeamStr row) ≠ res.team1_name →
            pyStrip (rowTeamStr row) ≠ res.team2_name →
            row ∉ res.team1_rows ∧ row ∉ res.team2_rows))) := by
  have hne : ¬(!df.hasTeam) = true := by simp [hteam]
  refine ⟨?_, ?_, ?_⟩
  · intro hlt
    unfold detect_teams_from_csv
    rw [if_neg hne, if_pos hlt]
  · intro hgt
    unfold detect_teams_from_csv
    rw [if_neg hne, if_neg (by omega), if_pos hgt]
  · intro h2
    obtain ⟨t1, t2, hu⟩ := List.length_eq_two.mp h2
    have ht1m : t1 ∈ uniqueTeamsOf df := by rw [hu]; simp
    have ht2m : t2 ∈ uniqueTeamsOf df := by rw [hu]; simp
    have ht1s : pyStrip t1 = t1 := uniqueTeamsOf_stripped df t1 ht1m
    have ht2s : pyStrip t2 = t2 := uniqueTeamsOf_stripped df t2 ht2m
    have hnodup := uniqueTeamsOf_nodup df
    rw [hu] at hnodup
    have ht12 : t1 ≠ t2 := by simpa using hnodup
    have hT1 : csvT1 df = t1 := by unfold csvT1; rw [hu]; simpa using ht1s
    have hT2 : csvT2 df = t2 := by unfold csvT2; rw [hu]; simpa using ht2s
    have hT12 : csvT1 df ≠ csvT2 df := by rw [hT1, hT2]; exact ht12
    refine ⟨csvSplit df, ?_, rfl, rfl, rfl, rfl, hT12, ?_⟩
    · unfold detect_teams_from_csv
      rw [if_neg hne, if_neg (by omega), if_neg (by omega)]
    · intro row hrow
      refine ⟨?_, ?_, ?_⟩
      · intro hr1
        constructor
        · exact List.mem_filter.mpr ⟨hrow, by simpa using hr1⟩
        · intro hmem
          have := (List.mem_filter.mp hmem).2
          simp at this
          exact hT12 (hr1.symm.trans this)
      · intro hr2
        constructor
        · exact List.mem_filter.mpr ⟨hrow, by simpa using hr2⟩
        · intro hmem
          have := (List.mem_filter.mp hmem).2
          simp at this
          exact hT12 (this.symm.trans hr2)
      · intro hn1 hn2
        constructor
        · intro hmem
          have := (List.mem_filter.mp hmem).2
          simp at this
          exact hn1 this
        · intro hmem
          have := (List.mem_filter.mp hmem).2
          simp at this
          exact hn2 this

/-- The claim C8 as frozen is false: with exactly two detected team values a
row whose team cell is the empty string is assigned to neither sub-table. -/
theorem c8_counterexample :
    detect_teams_from_csv dfC8x = .ok csvResX ∧
    (⟨some "", 5, "p3"⟩ : FlatRow) ∈ dfC8x.rows ∧
    (⟨some "", 5, "p3"⟩ : FlatRow) ∉ csvResX.team1_rows ∧
    (⟨some "", 5, "p3"⟩ : FlatRow) ∉ csvResX.team2_rows := by decide

/-- Closed instance of the amended claim C8 at a concrete two-team table. -/
theorem c8_flat_two_team_detection_witness :
    (dfC8x.hasTeam = true ∧ (uniqueTeamsOf dfC8x).length = 2) ∧
    (∃ res, detect_teams_from_csv dfC8x = .ok res ∧
      res.team1_name = csvT1 dfC8x ∧ res.team2_name = csvT2 dfC8x ∧
      res.team1_rows = csvTeamRows dfC8x res.team1_name ∧
      res.team2_rows = csvTeamRows dfC8x res.team2_name ∧
      res.team1_name ≠ res.team2_name ∧
      (∀ row ∈ dfC8x.rows,
        (pyStrip (rowTeamStr row) = res.team1_name →
          row ∈ res.team1_rows ∧ row ∉ res.team2_rows) ∧
        (pyStrip (rowTeamStr row) = res.team2_name →
          row ∈ res.team2_rows ∧ row ∉ res.team1_rows) ∧
        (pyStrip (rowTeamStr row) ≠ res.team1_name →
          pyStrip (rowTeamStr row) ≠ res.team2_name →
          row ∉ res.team1_rows ∧ row ∉ res.team2_rows))) :=
  ⟨⟨by decide, by decide⟩,
    (c8_flat_two_team_detection dfC8x (by decide)).2.2 (by decide)⟩

/-! ## Claim C4: symmetric duplicate-game detection -/

/-- Claim C4: if a game with the same date, league and season is stored with
home/away teams B/A, then the duplicate check for home/away A/B (team names
compared case-insensitively and whitespace-trimmed, in either order) finds
that stored game, the check itself is symmetric in its two team arguments,
and the upload gate rejects with that game before any record is created (the
error branch returns no modified store). -/
theorem c4_duplicate_game_symmetric
    (st : Store) (g : Game) (d l s a b : String)
    (hg : g ∈ st.games) (hd : g.date = d) (hl : g.league = l) (hs : g.season = s)
    (hh : normTeam g.home_team = normTeam b) (ha : normTeam g.away_team = normTeam a)
    (huniq : ∀ g' ∈ st.games, dupMatch d l s a b g' = true → g' = g) :
    check_duplicate_game st.games d l s a b = some g ∧
    check_duplicate_game st.games d l s b a = check_duplicate_game st.games d l s a b ∧
    upload_csv_duplicate_gate st d l s a b = .error g := by
  have hpg : dupMatch d l s a b g = true := by
    unfold dupMatch
    simp [hd, hl, hs, hh, ha]
  have hfind : check_duplicate_game st.games d l s a b = some g := by
    unfold check_duplicate_game
    have hex : ∃ x ∈ st.games, dupMatch d l s a b x = true := ⟨g, hg, hpg⟩
    obtain ⟨x, hxfind⟩ :
        ∃ x, st.games.find? (dupMatch d l s a b) = some x := by
      have := List.find?_isSome.mpr hex
      exact Option.isSome_iff_exists.mp this
    have hxmem := List.mem_of_find?_eq_some hxfind
    have hxp := List.find?_some hxfind
    rw [huniq x hxmem hxp] at hxfind
    exact hxfind
  refine ⟨hfind, ?_, ?_⟩
  · have hsymm : dupMatch d l s b a = dupMatch d l s a b := by
      funext g'
      unfold dupMatch
      rw [Bool.or_comm]
    unfold check_duplicate_game
    rw [hsymm]
  · unfold upload_csv_duplicate_gate
    rw [hfind]

/-- Closed instance of claim C4: uploading `" a "` vs `"b"` when `"B"` vs
`"A"` is already stored is rejected with the stored game. -/
theorem c4_duplicate_game_symmetric_witness :
    (gameBA ∈ stC4.games ∧ gameBA.date = "2024-01-15" ∧ gameBA.league = "L" ∧
      gameBA.season = "S" ∧ normTeam gameBA.home_team = normTeam "b" ∧
      normTeam gameBA.away_team = normTeam " a ") ∧
    (check_duplicate_game stC4.games "2024-01-15" "L" "S" " a " "b" = some gameBA ∧
      check_duplicate_game stC4.games "2024-01-15" "L" "S" "b" " a "
        = check_duplicate_game stC4.games "2024-01-15" "L" "S" " a " "b" ∧
      upload_csv_duplicate_gate stC4 "2024-01-15" "L" "S" " a " "b" = .error gameBA) :=
  ⟨⟨by decide, by decide, by decide, by decide, by decide, by decide⟩,
    c4_duplicate_game_symmetric stC4 gameBA "2024-01-15" "L" "S" " a " "b"
      (by decide) (by decide) (by decide) (by decide) (by decide) (by decide)
      (by decide)⟩

/-! ## Claim C9: player uniqueness invariant -/

theorem create_or_update_hitter_total_players (st : Store) (ht : HitterTotal) :
    (create_or_update_hitter_total st ht).players = st.players := by
  unfold create_or_update_hitter_total
  split <;> rfl

theorem recomputeStep_players (l s : String) (rel : List PlateAppearance)
    (acc : Store) (pid : Nat) : (recomputeStep l s rel acc pid).players = acc.players := by
  unfold recomputeStep
  exact create_or_update_hitter_total_players _ _

theorem recompute_players (st : Store) (l s : String) :
    (recompute_hitter_totals st l s).players = st.players := by
  unfold recompute_hitter_totals
  suffices h : ∀ (pids : List Nat) (rel : List PlateAppearance) (acc : Store),
      (pids.foldl (recomputeStep l s rel) acc).players = acc.players by
    exact h _ _ _
  intro pids
  induction pids with
  | nil => intro rel acc; rfl
  | cons pid pids ih =>
      intro rel acc
      rw [List.foldl_cons, ih, recomputeStep_players]

theorem find_or_create_player_preserves (st : Store) (name team : String)
    (lg : Option String) (h : playerKeysUnique st) :
    playerKeysUnique (find_or_create_player st name team lg).1 := by
  unfold find_or_create_player
  cases hfind : get_player_by_name_team st name team with
  | some p => exact h
  | none =>
      unfold create_player playerKeysUnique
      simp only [List.map_append, List.map_cons, List.map_nil]
      rw [List.nodup_append]
      refine ⟨h, List.nodup_singleton _, ?_⟩
      intro k hk hk1
      unfold get_player_by_name_team at hfind
      rw [List.find?_eq_none] at hfind
      obtain ⟨q, hq, rfl⟩ := List.mem_map.mp hk
      have := hfind q hq
      simp only [List.mem_singleton] at hk1
      apply this
      rw [hk1]
      exact beq_self_eq_true _

/-- Claim C9: every store state reachable from startup through the ingestion
operations has pairwise-distinct normalized (name, team) player keys — the
guarded find-or-create step never creates a second Player for a normalized
pair that already exists, and no other operation touches the player
collection. -/
theorem c9_player_uniqueness (ops : List IngestOp) : playerKeysUnique (runOps ops) := by
  unfold runOps
  suffices h : ∀ (ops : List IngestOp) (st : Store),
      playerKeysUnique st → playerKeysUnique (ops.foldl applyOp st) by
    refine h ops emptyStore ?_
    unfold playerKeysUnique emptyStore
    simp
  intro ops
  induction ops with
  | nil => intro st h; exact h
  | cons op ops ih =>
      intro st h
      rw [List.foldl_cons]
      refine ih _ ?_
      cases op with
      | findOrCreatePlayer n t lg => exact find_or_create_player_preserves st n t lg h
      | addGame lg sn dd ht aw hs as w => exact h
      | addPlateAppearance pa => exact h
      | recompute l s =>
          unfold playerKeysUnique
          rw [show (applyOp st (.recompute l s)) = recompute_hitter_totals st l s from rfl,
            recompute_players]
          exact h

/-! ## Claim C10: manual team assignment -/

/-- Claim C10 (amended): with both team parameters supplied no two-team
validation is performed (the branch is total and cannot raise); with no team
column every row goes to the home roster, the away roster is empty and the
away score 0; with a team column but a home_team matching no trimmed value,
every row still goes to the home roster, while the away roster is the rows
matching away_team when away_team does match some trimmed value — it is empty
with away score 0 only when away_team also matches nothing.  The original
claim's "the away roster is empty" fails when away_team matches. -/
theorem c10_manual_assignment (df : FlatDf) (home_team away_team : String) :
    (df.hasTeam = false →
      (manual_team_assignment df home_team away_team).team1_rows = df.rows ∧
      (manual_team_assignment df home_team away_team).team2_rows = [] ∧
      (manual_team_assignment df home_team away_team).away_score = 0) ∧
    (df.hasTeam = true → home_team ∉ manualUnique df →
      (manual_team_assignment df home_team away_team).team1_rows = df.rows ∧
      (manual_team_assignment df home_team away_team).team2_rows
        = (if away_team ∈ manualUnique df then
            df.rows.filter (fun row => pyStrip (rowTeamStr row) = away_team)
          else []) ∧
      (away_team ∉ manualUnique df →
        (manual_team_assignment df home_team away_team).team2_rows = [] ∧
        (manual_team_assignment df home_team away_team).away_score = 0)) := by
  constructor
  · intro hteam
    refine ⟨?_, ?_, ?_⟩
    · show manualTeam1 df home_team = df.rows
      unfold manualTeam1
      rw [hteam]
      rfl
    · show manualTeam2 df away_team = []
      unfold manualTeam2
      rw [hteam]
      rfl
    · show manualAwayScore df away_team = 0
      unfold manualAwayScore
      rw [hteam]
      rfl
  · intro hteam hhome
    refine ⟨?_, ?_, ?_⟩
    · show manualTeam1 df home_team = df.rows
      unfold manualTeam1
      rw [hteam, if_pos rfl, if_neg hhome]
    · show manualTeam2 df away_team = _
      unfold manualTeam2
      rw [hteam, if_pos rfl]
    · intro haway
      refine ⟨?_, ?_⟩
      · show manualTeam2 df away_team = []
        unfold manualTeam2
        rw [hteam, if_pos rfl, if_neg haway]
      · show manualAwayScore df away_team = 0
        unfold manualAwayScore
        rw [hteam, if_pos rfl, if_neg haway]

/-- The claim C10 as frozen is false: with a team column, an unmatched
home_team but a matching away_team, the away roster is the matching rows and
the away score their run total, not empty/0. -/
theorem c10_counterexample :
    dfC10x.hasTeam = true ∧
    "X" ∉ manualUnique dfC10x ∧
    (manual_team_assignment dfC10x "X" "B").team1_rows = dfC10x.rows ∧
    (manual_team_assignment dfC10x "X" "B").team2_rows = [⟨some "B", 1, "p1"⟩] ∧
    (manual_team_assignment dfC10x "X" "B").away_score = 1 := by decide

/-- Closed instance of the amended claim C10 on a table with no team
column. -/
theorem c10_manual_assignment_witness :
    dfC10w.hasTeam = false ∧
    ((manual_team_assignment dfC10w "H" "A").team1_rows = dfC10w.rows ∧
      (manual_team_assignment dfC10w "H" "A").team2_rows = [] ∧
      (manual_team_assignment dfC10w "H" "A").away_score = 0) :=
  ⟨by decide, (c10_manual_assignment dfC10w "H" "A").1 (by decide)⟩

/-! ## Claims C5, C6, C7: hitter-total recompute -/

theorem htMatch_iff {pid : Nat} {l s : String} {ht : HitterTotal} :
    htMatch pid l s ht = true ↔ htKey ht = (pid, l, s) := by
  unfold htMatch htKey
  simp [Bool.and_eq_true, beq_iff_eq, Prod.ext_iff, and_assoc]

theorem replaceFirst_find?_eq {a : Type} {p : a → Bool} {x : a} (hx : p x = true) :
    ∀ {l : List a}, (l.find? p).isSome = true →
      (replaceFirst p x l).find? p = some x := by
  intro l
  induction l with
  | nil => intro h; simp [List.find?] at h
  | cons y ys ih =>
      intro hsome
      by_cases hy : p y = true
      · unfold replaceFirst
        rw [if_pos hy]
        exact List.find?_cons_of_pos _ hx
      · unfold replaceFirst
        rw [if_neg hy]
        rw [List.find?_cons_of_neg _ (by simpa using hy)] at hsome
        rw [List.find?_cons_of_neg _ (by simpa using hy)]
        exact ih hsome

theorem replaceFirst_find?_other {a : Type} {p q : a → Bool} {x : a}
    (hdisj : ∀ y, p y = true → q y = false) (hqx : q x = false) :
    ∀ l : List a, (replaceFirst p x l).find? q = l.find? q := by
  intro l
  induction l with
  | nil => rfl
  | cons y ys ih =>
      by_cases hy : p y = true
      · unfold replaceFirst
        rw [if_pos hy]
        rw [List.find?_cons_of_neg _ (by simp [hqx]),
          List.find?_cons_of_neg _ (by simp [hdisj y hy])]
      · unfold replaceFirst
        rw [if_neg hy]
        by_cases hqy : q y = true
        · rw [List.find?_cons_of_pos _ hqy, List.find?_cons_of_pos _ hqy]
        · rw [List.find?_cons_of_neg _ (by simpa using hqy),
            List.find?_cons_of_neg _ (by simpa using hqy)]
          exact ih

theorem replaceFirst_mem_of_not {a : Type} {p : a → Bool} {x z : a}
    (hz : p z = false) : ∀ {l : List a}, z ∈ l → z ∈ replaceFirst p x l := by
  intro l
  induction l with
  | nil => intro h; simp at h
  | cons y ys ih =>
      intro hmem
      rcases List.mem_cons.mp hmem with rfl | hmem
      · unfold replaceFirst
        rw [if_neg (by simp [hz])]
        exact List.mem_cons_self _ _
      · unfold replaceFirst
        by_cases hy : p y = true
        · rw [if_pos hy]
          exact List.mem_cons_of_mem _ hmem
        · rw [if_neg hy]
          exact List.mem_cons_of_mem _ (ih hmem)

theorem replaceFirst_map_key {a b : Type} {p : a → Bool} {x : a} (f : a → b)
    (hkey : ∀ y, p y = true → f y = f x) :
    ∀ l : List a, (replaceFirst p x l).map f = l.map f := by
  intro l
  induction l with
  | nil => rfl
  | cons y ys ih =>
      by_cases hy : p y = true
      · unfold replaceFirst
        rw [if_pos hy]
        simp [List.map_cons, hkey y hy]
      · unfold replaceFirst
        rw [if_neg hy]
        simp [List.map_cons, ih]

theorem replaceFirst_self_eq {a : Type} {p : a → Bool} {x : a} :
    ∀ {l : List a}, l.find? p = some x → replaceFirst p x l = l := by
  intro l
  induction l with
  | nil => intro h; simp [List.find?] at h
  | cons y ys ih =>
      intro hfind
      by_cases hy : p y = true
      · rw [List.find?_cons_of_pos _ hy] at hfind
        injection hfind with hxy
        unfold replaceFirst
        rw [if_pos hy, hxy]
      · rw [List.find?_cons_of_neg _ (by simpa using hy)] at hfind
        unfold replaceFirst
        rw [if_neg hy, ih hfind]

theorem find?_append_none {a : Type} {p : a → Bool} {l : List a}
    (h : l.find? p = none) (x : a) :
    (l ++ [x]).find? p = if p x then some x else none := by
  induction l with
  | nil =>
      simp only [List.nil_append]
      by_cases hx : p x = true
      · rw [List.find?_cons_of_pos _ hx, if_pos hx]
      · rw [List.find?_cons_of_neg _ (by simpa using hx), if_neg (by simpa using hx)]
        rfl
  | cons y ys ih =>
      by_cases hy : p y = true
      · rw [List.find?_cons_of_pos _ hy] at h
        exact absurd h (by simp)
      · rw [List.find?_cons_of_neg _ (by simpa using hy)] at h
        rw [List.cons_append, List.find?_cons_of_neg _ (by simpa using hy)]
        exact ih h

theorem find?_append_some {a : Type} {p : a → Bool} {l : List a} {z : a}
    (h : l.find? p = some z) (x : a) : (l ++ [x]).find? p = some z := by
  induction l with
  | nil => simp [List.find?] at h
  | cons y ys ih =>
      by_cases hy : p y = true
      · rw [List.find?_cons_of_pos _ hy] at h
        rw [List.cons_append, List.find?_cons_of_pos _ hy]
        exact h
      · rw [List.find?_cons_of_neg _ (by simpa using hy)] at h
        rw [List.cons_append, List.find?_cons_of_neg _ (by simpa using hy)]
        exact ih h

theorem compute_derived_stats_eq_of_raw_eq {r1 r2 : HitterTotal}
    (hid : r1.id = r2.id) (hpid : r1.player_id = r2.player_id)
    (hl : r1.league = r2.league) (hs : r1.season = r2.season)
    (hg : r1.games = r2.games) (hAB : r1.AB = r2.AB) (hH : r1.H = r2.H)
    (hd : r1.double = r2.double) (ht : r1.triple = r2.triple)
    (hHR : r1.HR = r2.HR) (hBB : r1.BB = r2.BB) (hHBP : r1.HBP = r2.HBP)
    (hSF : r1.SF = r2.SF) (hSH : r1.SH = r2.SH) (hK : r1.K = r2.K)
    (hR : r1.R = r2.R) (hRBI : r1.RBI = r2.RBI) (hSB : r1.SB = r2.SB)
    (hCS : r1.CS = r2.CS) :
    compute_derived_stats r1 = compute_derived_stats r2 := by
  cases r1
  cases r2
  simp only [] at hid hpid hl hs hg hAB hH hd ht hHR hBB hHBP hSF hSH hK hR hRBI hSB hCS
  subst hid hpid hl hs hg hAB hH hd ht hHR hBB hHBP hSF hSH hK hR hRBI hSB hCS
  rfl

theorem compute_derived_stats_set_id (r : HitterTotal) (b : Nat) :
    ({ compute_derived_stats r with id := b } : HitterTotal)
      = compute_derived_stats { r with id := b } := by
  cases r
  rfl

theorem compute_derived_stats_idem (r : HitterTotal) :
    compute_derived_stats (compute_derived_stats r) = compute_derived_stats r := by
  cases r
  rfl

theorem freshHitterTotal_set_id (idv b pid : Nat) (l s : String)
    (pas : List PlateAppearance) :
    ({ freshHitterTotal idv pid l s pas with id := b } : HitterTotal)
      = freshHitterTotal b pid l s pas := by
  unfold freshHitterTotal
  rw [compute_derived_stats_set_id]

theorem recomputeStep_eq (l s : String) (rel : List PlateAppearance)
    (acc : Store) (pid : Nat) :
    recomputeStep l s rel acc pid
      = create_or_update_hitter_total acc
          (freshHitterTotal (htBaseId acc pid l s) pid l s
            (rel.filter (fun pa => pa.player_id == pid))) := by
  unfold recomputeStep
  congr 1
  unfold freshHitterTotal htBaseId recomputeBase
  cases hbase : get_hitter_total acc pid l s with
  | none => rfl
  | some e =>
      have hmatch : htMatch pid l s e = true := by
        unfold get_hitter_total at hbase
        exact List.find?_some hbase
      have hk := htMatch_iff.mp hmatch
      unfold htKey at hk
      simp only [Prod.mk.injEq] at hk
      obtain ⟨h1, h2, h3⟩ := hk
      apply compute_derived_stats_eq_of_raw_eq <;> simp [recomputeUpdated, h1, h2, h3]

theorem create_or_update_spec (acc : Store) (ht : HitterTotal) (pid : Nat) (l s : String)
    (hpid : ht.player_id = pid) (hlg : ht.league = l) (hsn : ht.season = s)
    (hkeys : htKeysUnique acc.hitter_totals) :
    htKeysUnique (create_or_update_hitter_total acc ht).hitter_totals ∧
    (create_or_update_hitter_total acc ht).games = acc.games ∧
    (create_or_update_hitter_total acc ht).plate_appearances = acc.plate_appearances ∧
    (create_or_update_hitter_total acc ht).players = acc.players ∧
    (∃ idv, (create_or_update_hitter_total acc ht).hitter_totals.find? (htMatch pid l s)
        = some ({ ht with id := idv })) ∧
    (∀ pid2 l2 s2, (pid2, l2, s2) ≠ (pid, l, s) →
      (create_or_update_hitter_total acc ht).hitter_totals.find? (htMatch pid2 l2 s2)
        = acc.hitter_totals.find? (htMatch pid2 l2 s2)) ∧
    (∀ x ∈ acc.hitter_totals, htKey x ≠ (pid, l, s) →
      x ∈ (create_or_update_hitter_total acc ht).hitter_totals) := by
  subst hpid hlg hsn
  have hkeyself : ∀ b : Nat, htKey ({ ht with id := b } : HitterTotal)
      = (ht.player_id, ht.league, ht.season) := fun _ => rfl
  unfold create_or_update_hitter_total
  cases hfind : acc.hitter_totals.find? (htMatch ht.player_id ht.league ht.season) with
  | some e =>
      have hx : htMatch ht.player_id ht.league ht.season ({ ht with id := e.id }) = true :=
        htMatch_iff.mpr (hkeyself e.id)
      refine ⟨?_, rfl, rfl, rfl, ?_, ?_, ?_⟩
      · unfold htKeysUnique
        rw [replaceFirst_map_key htKey ?_]
        · exact hkeys
        · intro y hpy
          rw [htMatch_iff.mp hpy, hkeyself]
      · exact ⟨e.id, replaceFirst_find?_eq hx (by rw [hfind]; rfl)⟩
      · intro pid2 l2 s2 hne
        apply replaceFirst_find?_other
        · intro y hpy
          cases hqy : htMatch pid2 l2 s2 y with
          | false => rfl
          | true =>
              exact absurd ((htMatch_iff.mp hpy).symm.trans (htMatch_iff.mp hqy))
                (fun hcontra => hne hcontra.symm)
        · cases hqx : htMatch pid2 l2 s2 ({ ht with id := e.id }) with
          | false => rfl
          | true =>
              exact absurd ((hkeyself e.id).symm.trans (htMatch_iff.mp hqx))
                (fun hcontra => hne hcontra.symm)
      · intro x hx2 hne
        apply replaceFirst_mem_of_not ?_ hx2
        cases hpx : htMatch ht.player_id ht.league ht.season x with
        | false => rfl
        | true => exact absurd (htMatch_iff.mp hpx) hne
  | none =>
      have hnotin : ∀ y ∈ acc.hitter_totals,
          ¬htMatch ht.player_id ht.league ht.season y = true :=
        fun y hy => by
          have := List.find?_eq_none.mp hfind y hy
          simpa using this
      have hxnew : htMatch ht.player_id ht.league ht.season
          ({ ht with id := acc.hitter_total_counter + 1 }) = true :=
        htMatch_iff.mpr (hkeyself _)
      refine ⟨?_, rfl, rfl, rfl, ?_, ?_, ?_⟩
      · unfold htKeysUnique
        simp only [List.map_append, List.map_cons, List.map_nil]
        rw [List.nodup_append]
        refine ⟨hkeys, List.nodup_singleton _, ?_⟩
        intro k hk hk1
        simp only [List.mem_singleton] at hk1
        obtain ⟨y, hy, rfl⟩ := List.mem_map.mp hk
        refine hnotin y hy ?_
        rw [htMatch_iff, hk1, hkeyself]
      · refine ⟨acc.hitter_total_counter + 1, ?_⟩
        rw [find?_append_none hfind, if_pos hxnew]
      · intro pid2 l2 s2 hne
        cases hfq : acc.hitter_totals.find? (htMatch pid2 l2 s2) with
        | some z => exact find?_append_some hfq _
        | none =>
            rw [find?_append_none hfq]
            cases hqx : htMatch pid2 l2 s2 ({ ht with id := acc.hitter_total_counter + 1 }) with
            | false => rw [if_neg (by simp [hqx])]
            | true =>
                exact absurd ((hkeyself _).symm.trans (htMatch_iff.mp hqx))
                  (fun hcontra => hne hcontra.symm)
      · intro x hx2 _
        exact List.mem_append_left _ hx2

theorem recompute_fold_spec (l s : String) (rel : List PlateAppearance) :
    ∀ (pids : List Nat), pids.Nodup → ∀ (acc : Store), htKeysUnique acc.hitter_totals →
      htKeysUnique ((pids.foldl (recomputeStep l s rel) acc).hitter_totals) ∧
      (pids.foldl (recomputeStep l s rel) acc).games = acc.games ∧
      (pids.foldl (recomputeStep l s rel) acc).plate_appearances = acc.plate_appearances ∧
      (pids.foldl (recomputeStep l s rel) acc).players = acc.players ∧
      (∀ pid ∈ pids, ∃ idv,
        (pids.foldl (recomputeStep l s rel) acc).hitter_totals.find? (htMatch pid l s)
          = some (freshHitterTotal idv pid l s
              (rel.filter (fun pa => pa.player_id == pid)))) ∧
      (∀ pid2 l2 s2, (l2 ≠ l ∨ s2 ≠ s ∨ pid2 ∉ pids) →
        (pids.foldl (recomputeStep l s rel) acc).hitter_totals.find? (htMatch pid2 l2 s2)
          = acc.hitter_totals.find? (htMatch pid2 l2 s2)) ∧
      (∀ x ∈ acc.hitter_totals, (x.league ≠ l ∨ x.season ≠ s ∨ x.player_id ∉ pids) →
        x ∈ (pids.foldl (recomputeStep l s rel) acc).hitter_totals) := by
  intro pids
  induction pids with
  | nil =>
      intro _ acc hkeys
      exact ⟨hkeys, rfl, rfl, rfl, by simp, fun _ _ _ _ => rfl, fun x hx _ => hx⟩
  | cons pid pids ih =>
      intro hnodup acc hkeys
      obtain ⟨hpidnot, hnodup2⟩ : pid ∉ pids ∧ pids.Nodup := by
        rw [List.nodup_cons] at hnodup
        exact hnodup
      have S := create_or_update_spec acc
        (freshHitterTotal (htBaseId acc pid l s) pid l s
          (rel.filter (fun pa => pa.player_id == pid))) pid l s rfl rfl rfl hkeys
      obtain ⟨S1, S2, S3, S4, ⟨idv0, S5⟩, S6, S7⟩ := S
      have hstep : recomputeStep l s rel acc pid
          = create_or_update_hitter_total acc
              (freshHitterTotal (htBaseId acc pid l s) pid l s
                (rel.filter (fun pa => pa.player_id == pid))) := recomputeStep_eq l s rel acc pid
      obtain ⟨I1, I2, I3, I4, I5, I6, I7⟩ := ih hnodup2 _ S1
      rw [List.foldl_cons, hstep]
      refine ⟨I1, I2.trans S2, I3.trans S3, I4.trans S4, ?_, ?_, ?_⟩
      · intro q hq
        rcases List.mem_cons.mp hq with rfl | hq
        · refine ⟨idv0, ?_⟩
          rw [I6 q l s (Or.inr (Or.inr hpidnot)), S5, freshHitterTotal_set_id]
        · exact I5 q hq
      · intro pid2 l2 s2 hcond
        have hcond2 : l2 ≠ l ∨ s2 ≠ s ∨ pid2 ∉ pids := by
          rcases hcond with h | h | h
          · exact Or.inl h
          · exact Or.inr (Or.inl h)
          · exact Or.inr (Or.inr (fun hmem => h (List.mem_cons_of_mem _ hmem)))
        rw [I6 pid2 l2 s2 hcond2]
        apply S6
        intro hc
        simp only [Prod.mk.injEq] at hc
        obtain ⟨hpe, hle, hse⟩ := hc
        rcases hcond with h | h | h
        · exact h hle
        · exact h hse
        · exact h (by rw [hpe]; exact List.mem_cons_self _ _)
      · intro x hx hcond
        have hcond2 : x.league ≠ l ∨ x.season ≠ s ∨ x.player_id ∉ pids := by
          rcases hcond with h | h | h
          · exact Or.inl h
          · exact Or.inr (Or.inl h)
          · exact Or.inr (Or.inr (fun hmem => h (List.mem_cons_of_mem _ hmem)))
        refine I7 x ?_ hcond2
        apply S7 x hx
        intro hkeyx
        unfold htKey at hkeyx
        simp only [Prod.mk.injEq] at hkeyx
        obtain ⟨hpe, hle, hse⟩ := hkeyx
        rcases hcond with h | h | h
        · exact h hle
        · exact h hse
        · exact h (by rw [hpe]; exact List.mem_cons_self _ _)

theorem recompute_spec (st : Store) (l s : String)
    (hkeys : htKeysUnique st.hitter_totals) :
    (∀ pid ∈ (relevantPAs st l s).map (·.player_id),
      ∃ idv, get_hitter_total (recompute_hitter_totals st l s) pid l s
        = some (freshHitterTotal idv pid l s
            ((relevantPAs st l s).filter (fun pa => pa.player_id == pid)))) ∧
    (∀ x ∈ st.hitter_totals,
      (x.league ≠ l ∨ x.season ≠ s ∨
        x.player_id ∉ (relevantPAs st l s).map (·.player_id)) →
      x ∈ (recompute_hitter_totals st l s).hitter_totals) := by
  obtain ⟨F1, F2, F3, F4, F5, F6, F7⟩ := recompute_fold_spec l s (relevantPAs st l s)
    (pyUnique ((relevantPAs st l s).map (·.player_id))) (pyUnique_nodup _) st hkeys
  constructor
  · intro pid hpid
    exact F5 pid (pyUnique_mem.mpr hpid)
  · intro x hx hcond
    apply F7 x hx
    rcases hcond with h | h | h
    · exact Or.inl h
    · exact Or.inr (Or.inl h)
    · exact Or.inr (Or.inr (fun hmem => h (pyUnique_mem.mp hmem)))

/-- Claim C5 (amended): recomputing hitter totals for (league, season)
overwrites, for every player having at least one PlateAppearance in that
league/season, the stored HitterTotal for that exact key with the freshly
folded values (creating it if absent) — a wholesale overwrite of every stat
field, not an incremental merge; but prior HitterTotal rows whose key is not
among those players are left in place: nothing is discarded, so a stale row
for a player with no plate appearances survives, contrary to the frozen
claim's delete-and-rebuild reading. -/
theorem c5_recompute_overwrites_without_delete (st : Store) (l s : String)
    (hkeys : htKeysUnique st.hitter_totals) :
    (∀ pid ∈ (relevantPAs st l s).map (·.player_id),
      ∃ idv, get_hitter_total (recompute_hitter_totals st l s) pid l s
        = some (freshHitterTotal idv pid l s
            ((relevantPAs st l s).filter (fun pa => pa.player_id == pid)))) ∧
    (∀ x ∈ st.hitter_totals,
      (x.league ≠ l ∨ x.season ≠ s ∨
        x.player_id ∉ (relevantPAs st l s).map (·.player_id)) →
      x ∈ (recompute_hitter_totals st l s).hitter_totals) :=
  recompute_spec st l s hkeys

/-- The claim C5 as frozen is false: in a store whose league `L`, season `S`
has no plate appearances at all, the freshly folded set is empty, yet the
stale HitterTotal row for player 7 survives the recompute untouched — no
prior row is discarded. -/
theorem c5_counterexample :
    relevantPAs stC5x "L" "S" = [] ∧
    htStale ∈ stC5x.hitter_totals ∧
    recompute_hitter_totals stC5x "L" "S" = stC5x ∧
    htStale ∈ (recompute_hitter_totals stC5x "L" "S").hitter_totals := by
  refine ⟨rfl, ?_, rfl, ?_⟩
  · show htStale ∈ [htStale]
    exact List.mem_singleton_self _
  · show htStale ∈ [htStale]
    exact List.mem_singleton_self _

/-- Closed instance of the amended claim C5. -/
theorem c5_recompute_overwrites_without_delete_witness :
    htKeysUnique stC5w.hitter_totals ∧
    ((∀ pid ∈ (relevantPAs stC5w "L" "S").map (·.player_id),
      ∃ idv, get_hitter_total (recompute_hitter_totals stC5w "L" "S") pid "L" "S"
        = some (freshHitterTotal idv pid "L" "S"
            ((relevantPAs stC5w "L" "S").filter (fun pa => pa.player_id == pid)))) ∧
    (∀ x ∈ stC5w.hitter_totals,
      (x.league ≠ "L" ∨ x.season ≠ "S" ∨
        x.player_id ∉ (relevantPAs stC5w "L" "S").map (·.player_id)) →
      x ∈ (recompute_hitter_totals stC5w "L" "S").hitter_totals)) :=
  ⟨by decide, c5_recompute_overwrites_without_delete stC5w "L" "S" (by decide)⟩

/-- Claim C6: in every recomputed HitterTotal the games-played count equals
the number of distinct game ids among that player's plate appearances for the
(league, season), never a per-row increment. -/
theorem c6_games_played_distinct_count (st : Store) (l s : String)
    (hkeys : htKeysUnique st.hitter_totals) (pid : Nat)
    (hpid : pid ∈ (relevantPAs st l s).map (·.player_id)) :
    ∃ ht, get_hitter_total (recompute_hitter_totals st l s) pid l s = some ht ∧
      ht.games = (pyUnique (((relevantPAs st l s).filter
        (fun pa => pa.player_id == pid)).map (·.game_id))).length := by
  obtain ⟨idv, hfind⟩ := (recompute_spec st l s hkeys).1 pid hpid
  exact ⟨freshHitterTotal idv pid l s _, hfind, rfl⟩

/-- Closed instance of claim C6: a player with one plate-appearance row in
game 1 and two rows in game 2 gets games = 2. -/
theorem c6_games_played_distinct_count_witness :
    (htKeysUnique stC6w.hitter_totals ∧
      3 ∈ (relevantPAs stC6w "L" "S").map (·.player_id)) ∧
    (∃ ht, get_hitter_total (recompute_hitter_totals stC6w "L" "S") 3 "L" "S" = some ht ∧
      ht.games = (pyUnique (((relevantPAs stC6w "L" "S").filter
        (fun pa => pa.player_id == 3)).map (·.game_id))).length) ∧
    (pyUnique (((relevantPAs stC6w "L" "S").filter
      (fun pa => pa.player_id == 3)).map (·.game_id))).length = 2 :=
  ⟨⟨by decide, by decide⟩,
    c6_games_played_distinct_count stC6w "L" "S" (by decide) 3 (by decide),
    by decide⟩

theorem create_or_update_self (st : Store) (ht : HitterTotal)
    (hfind : st.hitter_totals.find? (htMatch ht.player_id ht.league ht.season) = some ht) :
    create_or_update_hitter_total st ht = st := by
  unfold create_or_update_hitter_total
  rw [hfind]
  show ({ st with hitter_totals :=
      replaceFirst (htMatch ht.player_id ht.league ht.season) ht st.hitter_totals } : Store) = st
  rw [replaceFirst_self_eq hfind]

theorem recomputeStep_id (l s : String) (rel : List PlateAppearance)
    (acc : Store) (pid : Nat)
    (h : ∃ idv, get_hitter_total acc pid l s
        = some (freshHitterTotal idv pid l s
            (rel.filter (fun pa => pa.player_id == pid)))) :
    recomputeStep l s rel acc pid = acc := by
  obtain ⟨idv, hbase⟩ := h
  have hbid : htBaseId acc pid l s = idv := by
    unfold htBaseId
    rw [hbase]
    exact rfl
  rw [recomputeStep_eq, hbid]
  apply create_or_update_self
  exact hbase

theorem recompute_fold_id (l s : String) (rel : List PlateAppearance) :
    ∀ (pids : List Nat) (acc : Store),
      (∀ pid ∈ pids, ∃ idv, get_hitter_total acc pid l s
          = some (freshHitterTotal idv pid l s
              (rel.filter (fun pa => pa.player_id == pid)))) →
      pids.foldl (recomputeStep l s rel) acc = acc := by
  intro pids
  induction pids with
  | nil => intro acc _; rfl
  | cons pid pids ih =>
      intro acc h
      rw [List.foldl_cons, recomputeStep_id l s rel acc pid (h pid (List.mem_cons_self _ _))]
      exact ih acc (fun q hq => h q (List.mem_cons_of_mem _ hq))

theorem create_or_update_games_eq (st : Store) (ht : HitterTotal) :
    (create_or_update_hitter_total st ht).games = st.games := by
  unfold create_or_update_hitter_total
  split <;> rfl

theorem create_or_update_pas_eq (st : Store) (ht : HitterTotal) :
    (create_or_update_hitter_total st ht).plate_appearances = st.plate_appearances := by
  unfold create_or_update_hitter_total
  split <;> rfl

theorem recompute_games_eq (st : Store) (l s : String) :
    (recompute_hitter_totals st l s).games = st.games := by
  unfold recompute_hitter_totals
  suffices h : ∀ (pids : List Nat) (rel : List PlateAppearance) (acc : Store),
      (pids.foldl (recomputeStep l s rel) acc).games = acc.games by
    exact h _ _ _
  intro pids
  induction pids with
  | nil => intro rel acc; rfl
  | cons pid pids ih =>
      intro rel acc
      rw [List.foldl_cons, ih]
      unfold recomputeStep
      exact create_or_update_games_eq _ _

theorem recompute_pas_eq (st : Store) (l s : String) :
    (recompute_hitter_totals st l s).plate_appearances = st.plate_appearances := by
  unfold recompute_hitter_totals
  suffices h : ∀ (pids : List Nat) (rel : List PlateAppearance) (acc : Store),
      (pids.foldl (recomputeStep l s rel) acc).plate_appearances = acc.plate_appearances by
    exact h _ _ _
  intro pids
  induction pids with
  | nil => intro rel acc; rfl
  | cons pid pids ih =>
      intro rel acc
      rw [List.foldl_cons, ih]
      unfold recomputeStep
      exact create_or_update_pas_eq _ _

theorem relevantPAs_recompute (st : Store) (l s l2 s2 : String) :
    relevantPAs (recompute_hitter_totals st l s) l2 s2 = relevantPAs st l2 s2 := by
  unfold relevantPAs
  rw [recompute_games_eq, recompute_pas_eq]

/-- Claim C7: recomputing hitter totals twice in a row for the same
(league, season), with nothing ingested in between, leaves the entire store —
in particular every HitterTotal record with all raw fields, games count and
derived fields — identical to the result of the first run. -/
theorem c7_recompute_idempotent (st : Store) (l s : String)
    (hkeys : htKeysUnique st.hitter_totals) :
    recompute_hitter_totals (recompute_hitter_totals st l s) l s
      = recompute_hitter_totals st l s := by
  obtain ⟨F1, F2, F3, F4, F5, F6, F7⟩ := recompute_fold_spec l s (relevantPAs st l s)
    (pyUnique ((relevantPAs st l s).map (·.player_id))) (pyUnique_nodup _) st hkeys
  have hrel : relevantPAs (recompute_hitter_totals st l s) l s = relevantPAs st l s :=
    relevantPAs_recompute st l s l s
  show (pyUnique ((relevantPAs (recompute_hitter_totals st l s) l s).map (·.player_id))).foldl
      (recomputeStep l s (relevantPAs (recompute_hitter_totals st l s) l s))
      (recompute_hitter_totals st l s) = recompute_hitter_totals st l s
  rw [hrel]
  apply recompute_fold_id
  intro pid hpid
  exact F5 pid hpid

/-- Closed instance of claim C7. -/
theorem c7_recompute_idempotent_witness :
    htKeysUnique stC7w.hitter_totals ∧
    recompute_hitter_totals (recompute_hitter_totals stC7w "L" "S") "L" "S"
      = recompute_hitter_totals stC7w "L" "S" :=
  ⟨by decide, c7_recompute_idempotent stC7w "L" "S" (by decide)⟩

end StatTracker
